import Mathlib

/-!
Shallow embedding of the XML explorer/analyzer toolkit core
(tree-view builder and search, structural analyzer, extraction engine)
together with theorems settling the spec claims.

Source layout referenced throughout:
- XMLTreeView (builder `parseNode`, search effect `findMatchingNodes`)
- XMLSearch (the `SearchOptions` record and `handleSearch` forwarding)
- XMLAnalyzer (`analyzeNode`)
- XMLExtractor (`generatePreview`, `extractData`, `cloneParentStructure`,
  `cloneWithParents`)
-/

namespace XmlToolkit

/-! ## String primitives

JavaScript string operations used by the source, embedded over the
character list of a `String` so that every definition evaluates by kernel
reduction.  `Char.toLower` is the host's per-character case folding. -/

/-- Boolean infix-of test on character lists: `needle` occurs contiguously
inside `hay`.  This is the semantics of JavaScript `hay.includes(needle)`. -/
def isInfixB (needle hay : List Char) : Bool :=
  needle.isPrefixOf hay ||
    (match hay with
     | [] => false
     | _ :: t => isInfixB needle t)

/-- JavaScript `hay.includes(needle)`. -/
def strIncludes (hay needle : String) : Bool :=
  isInfixB needle.data hay.data

/-- JavaScript `s.toLowerCase()` (per-character case folding). -/
def lowerS (s : String) : String := ⟨s.data.map Char.toLower⟩

/-- JavaScript `s.trim()`: strip leading and trailing whitespace. -/
def trimS (s : String) : String :=
  ⟨((s.data.dropWhile Char.isWhitespace).reverse.dropWhile Char.isWhitespace).reverse⟩

/-- Join a list of strings with a separator (JavaScript `Array.join(sep)`). -/
def joinWith (sep : String) : List String → String
  | [] => ""
  | [x] => x
  | x :: xs => x ++ sep ++ joinWith sep xs

/-! ## Document model

`DNode` models the host DOM node tree the browser parser produces from the
raw XML text: elements carry a tag name, attributes in document order, and
child nodes in document order; text, comment and CDATA nodes carry their
character data.  All core components consume this tree. -/

/-- A parsed DOM node: element, text, comment, or CDATA section. -/
inductive DNode where
  | elem (name : String) (attrs : List (String × String)) (children : List DNode)
  | text (s : String)
  | comment (s : String)
  | cdata (s : String)

/-- Tag name of an element node; DOM `#text`-style names are irrelevant
here because the model only asks elements for their name. -/
def DNode.nodeName : DNode → String
  | .elem n _ _ => n
  | .text _ => "#text"
  | .comment _ => "#comment"
  | .cdata _ => "#cdata-section"

/-- Element test (DOM `nodeType === Node.ELEMENT_NODE`). -/
def DNode.isElem : DNode → Bool
  | .elem _ _ _ => true
  | _ => false

/-! ## Tree-view document model builder (XMLTreeView.parseNode)

`parseNode` converts a DOM node into the tree-view's `XMLNode` record,
assigning every node a `path` string.  An element's path extends the
parent's path with `/` and its own tag name (lines 62-66); text, comment
and CDATA children get the parent element's new path suffixed with
`text()[i]` / `comment()[i]` / `cdata()[i]` where `i` is the child's
position among the parent's DOM child nodes (lines 77-103).  Whitespace-only
text children are dropped. -/

/-- Tree-view node: the `XMLNode` interface of the source, with the fields
`parseNode` actually populates for each variant. -/
inductive XNode where
  | element (name : String) (attrs : List (String × String)) (children : List XNode) (path : String)
  | text (value : String) (path : String)
  | comment (value : String) (path : String)
  | cdata (value : String) (path : String)

/-- Path field of a tree-view node. -/
def XNode.path : XNode → String
  | .element _ _ _ p => p
  | .text _ p => p
  | .comment _ p => p
  | .cdata _ p => p

/-- Children of a tree-view node (leaf variants have none). -/
def XNode.children : XNode → List XNode
  | .element _ _ ch _ => ch
  | _ => []

/-- Path extension of `parseNode` line 66:
`path ? path + "/" + name : name`. -/
def joinPath (path name : String) : String :=
  if path = "" then name else path ++ "/" ++ name

mutual

/-- XMLTreeView `parseNode` (lines 62-141): build the tree-view node for a
DOM node given the parent's path. -/
def parseNode : DNode → String → XNode
  | .elem name attrs cs, path =>
    let newPath := joinPath path name
    .element name attrs (parseChildren newPath cs 0) newPath
  | .text s, path =>
    if trimS s = "" then .text "" path else .text (trimS s) path
  | .comment s, path => .comment s path
  | .cdata s, path => .cdata s path

/-- Child-processing loop of `parseNode` (lines 77-103): walk the DOM child
list with its index, keeping trimmed non-empty text, comments, CDATA, and
recursively parsed element children. -/
def parseChildren (newPath : String) : List DNode → Nat → List XNode
  | [], _ => []
  | c :: rest, i =>
    match c with
    | .text s =>
      (if trimS s ≠ "" then
        [XNode.text (trimS s) (newPath ++ "/text()[" ++ toString i ++ "]")]
       else []) ++ parseChildren newPath rest (i + 1)
    | .comment s =>
      XNode.comment s (newPath ++ "/comment()[" ++ toString i ++ "]") ::
        parseChildren newPath rest (i + 1)
    | .cdata s =>
      XNode.cdata s (newPath ++ "/cdata()[" ++ toString i ++ "]") ::
        parseChildren newPath rest (i + 1)
    | .elem n a cc =>
      parseNode (.elem n a cc) newPath :: parseChildren newPath rest (i + 1)

end

/-! ## Tree-view build bookkeeping: pre-expanded paths (lines 105-112, 151)

During `parseNode`, an element whose built child list has length 1 and
which has simple text content queues its path into the expanded-path set
(lines 105-112).  After the whole tree is built, the effect unconditionally
resets the expanded set to contain only the root element's name
(line 151: `setExpandedNodes(new Set([rootElement.nodeName]))`, a direct
value that supersedes every queued functional update). -/

/-- True when the DOM child list contains a text child with non-empty
trimmed content (`hasTextContent`, lines 75-87). -/
def hasTextContent (cs : List DNode) : Bool :=
  cs.any fun c =>
    match c with
    | .text s => trimS s ≠ ""
    | _ => false

/-- Number of children `parseNode` keeps in the built child array:
whitespace-only text children are dropped, everything else is kept. -/
def builtChildCount (cs : List DNode) : Nat :=
  (cs.filter fun c =>
    match c with
    | .text s => trimS s ≠ ""
    | _ => true).length

mutual

/-- Paths queued for pre-expansion while parsing (line 107 adds), in the
order the `setExpandedNodes` updater calls fire: children first (inside the
recursive `parseNode` calls of the loop), then the current element. -/
def preExpanded : DNode → String → List String
  | .elem name _ cs, path =>
    let newPath := joinPath path name
    preExpandedL newPath cs ++
      (if hasTextContent cs && builtChildCount cs == 1 then [newPath] else [])
  | .text _, _ => []
  | .comment _, _ => []
  | .cdata _, _ => []

/-- Pre-expansion collection over a DOM child list. -/
def preExpandedL (newPath : String) : List DNode → List String
  | [] => []
  | c :: rest => preExpanded c newPath ++ preExpandedL newPath rest

end

/-- Expanded-path set recorded once the build effect completes: line 151
replaces the whole set with just the root element's name, superseding the
pre-expansion adds collected during `parseNode`. -/
def expandedAfterBuild (root : DNode) : List String :=
  let _queued := preExpanded root ""
  [root.nodeName]

/-! ## Search engine (XMLTreeView lines 166-210, XMLSearch, Index)

The match-set effect tests every tree node: `nodeText` is the node's name
if present else its value, `attributeText` renders the attribute map as
`k="v"` pairs joined by spaces, and a node matches when the search term is
non-empty and one of the two case-folded renderings contains the
case-folded term (lines 176-184).  Matched nodes with a non-empty path are
collected in pre-order. -/

/-- Node text per line 176: `node.name || node.value || ""`; elements carry
only a name, the other variants only a value. -/
def nodeTextOf : XNode → String
  | .element n _ _ _ => n
  | .text v _ => v
  | .comment v _ => v
  | .cdata v _ => v

/-- Attribute text per lines 177-179: attribute entries rendered
`k="v"` and joined with single spaces; non-elements have none. -/
def attrTextOf : XNode → String
  | .element _ attrs _ _ =>
    joinWith " " (attrs.map fun kv => kv.1 ++ "=\"" ++ kv.2 ++ "\"")
  | _ => ""

/-- Match test of lines 181-184: non-empty term, and case-folded substring
containment in the node text or the attribute text. -/
def nodeContains (term : String) (n : XNode) : Bool :=
  term != "" &&
    (strIncludes (lowerS (nodeTextOf n)) (lowerS term) ||
      strIncludes (lowerS (attrTextOf n)) (lowerS term))

mutual

/-- XMLTreeView `findMatchingNodes` (lines 175-206) restricted to the match
set it builds: pre-order collection of the paths of matching nodes (the
parallel ancestor-expansion bookkeeping is a separate output not modelled
here). -/
def findMatchingNodes (term : String) : XNode → List String
  | .element n a ch p =>
    (if nodeContains term (.element n a ch p) && p != "" then [p] else []) ++
      findMatchingNodesL term ch
  | .text v p => if nodeContains term (.text v p) && p != "" then [p] else []
  | .comment v p => if nodeContains term (.comment v p) && p != "" then [p] else []
  | .cdata v p => if nodeContains term (.cdata v p) && p != "" then [p] else []

/-- Pre-order match collection over a child list. -/
def findMatchingNodesL (term : String) : List XNode → List String
  | [] => []
  | c :: cs => findMatchingNodes term c ++ findMatchingNodesL term cs

end

/-- Search-target scope option of the XMLSearch panel. -/
inductive SearchScope where
  | all | elements | attributes | values

/-- The `SearchOptions` record of XMLSearch (lines 432-437). -/
structure SearchOptions where
  caseSensitive : Bool
  wholeWord : Bool
  searchIn : SearchScope
  useRegex : Bool

/-- Match-set effect guard (lines 166-170): an empty term yields the empty
match set without traversing. -/
def searchEffect (term : String) (t : XNode) : List String :=
  if term = "" then [] else findMatchingNodes term t

/-- End-to-end search as wired in the page: `handleSearch` (Index
lines 121-164) forwards the unmodified term to the tree view, and
XMLTreeView receives only `searchTerm` — no options prop exists — so the
options record never reaches the matcher. -/
def searchWithOptions (term : String) (_opts : SearchOptions) (t : XNode) : List String :=
  searchEffect term t

/-! ## Structural analyzer (XMLAnalyzer lines 59-95)

`analyzeNode` threads mutable counters through a pre-order walk; here the
counters are an explicit record.  String/number-keyed JavaScript objects
are insertion-ordered association lists. -/

/-- Increment the count stored under a key in an insertion-ordered
association list (JavaScript `m[k] = (m[k] || 0) + 1`). -/
def bumpCount [BEq α] (m : List (α × Nat)) (k : α) : List (α × Nat) :=
  if m.any (fun p => p.1 == k) then
    m.map fun p => if p.1 == k then (p.1, p.2 + 1) else p
  else m ++ [(k, 1)]

/-- Count stored under a key (0 when absent). -/
def getCount [BEq α] (m : List (α × Nat)) (k : α) : Nat :=
  match m.find? (fun p => p.1 == k) with
  | some p => p.2
  | none => 0

/-- Counter state of the analyzer effect (lines 59-64). -/
structure AnalyzerStats where
  elementCounts : List (String × Nat)
  attributeCounts : List (String × Nat)
  depthCounts : List (Nat × Nat)
  maxLevel : Nat
  elemTotal : Nat
  attrTotal : Nat

/-- All counters zero, as at the start of the analyzer effect. -/
def initStats : AnalyzerStats := ⟨[], [], [], 0, 0, 0⟩

mutual

/-- XMLAnalyzer `analyzeNode` (lines 67-92): record the level for every
visited node (`if (level > maxLevel) maxLevel = level`), and for element
nodes tally the tag, the depth bucket, and each attribute in order
(`attributeCounts[name]++` with `attrTotal++` per attribute), then recurse
into every DOM child at `level + 1`.  Non-element nodes only contribute to
`maxLevel`.  The counters are destructured so each update touches only the
fields the source mutates. -/
def analyzeNode : AnalyzerStats → DNode → Nat → AnalyzerStats
  | ⟨ec, ac, dc, ml, et, ta⟩, .elem nm attrs ch, level =>
    match attrs.foldl (fun p kv => (bumpCount p.1 kv.1, p.2 + 1)) (ac, ta) with
    | (ac2, ta2) =>
      analyzeNodeL
        ⟨bumpCount ec nm, ac2, bumpCount dc level, max ml level, et + 1, ta2⟩
        ch (level + 1)
  | ⟨ec, ac, dc, ml, et, ta⟩, .text _, level => ⟨ec, ac, dc, max ml level, et, ta⟩
  | ⟨ec, ac, dc, ml, et, ta⟩, .comment _, level => ⟨ec, ac, dc, max ml level, et, ta⟩
  | ⟨ec, ac, dc, ml, et, ta⟩, .cdata _, level => ⟨ec, ac, dc, max ml level, et, ta⟩

/-- Child loop of `analyzeNode` (lines 87-90). -/
def analyzeNodeL : AnalyzerStats → List DNode → Nat → AnalyzerStats
  | s, [], _ => s
  | s, c :: cs, level => analyzeNodeL (analyzeNode s c level) cs level

end

/-- Whole-document analysis (line 95): start at the root element with
level 0 on fresh counters. -/
def analyze (root : DNode) : AnalyzerStats :=
  analyzeNode initStats root 0

/-! ## Extraction engine (XMLExtractor)

The extractor works on the parsed DOM.  Matched elements are represented
with their chain of proper ancestors (root-first, name and attributes),
which is exactly what the source reads back through `parentNode` when it
builds identification paths and ancestor clones. -/

/-- A matched element together with its proper ancestor chain (root-first);
each ancestor is its tag name and attribute list. -/
structure MElem where
  ancestors : List (String × List (String × String))
  name : String
  attrs : List (String × String)
  children : List DNode

mutual

/-- Pre-order scan of every element in a subtree, threading the ancestor
chain (document order, as DOM `getElementsByTagName` enumerates). -/
def scanElems : List (String × List (String × String)) → DNode → List MElem
  | anc, .elem n a ch => ⟨anc, n, a, ch⟩ :: scanElemsL (anc ++ [(n, a)]) ch
  | _, .text _ => []
  | _, .comment _ => []
  | _, .cdata _ => []

/-- Element scan over a child list. -/
def scanElemsL : List (String × List (String × String)) → List DNode → List MElem
  | _, [] => []
  | anc, c :: cs => scanElems anc c ++ scanElemsL anc cs

end

/-- DOM `document.getElementsByTagName(name)`: all elements of the document
(root included) in document order, filtered by tag name unless the name is
the wildcard. -/
def getElementsByTagName (doc : DNode) (name : String) : List MElem :=
  if name = "*" then scanElems [] doc
  else (scanElems [] doc).filter fun e => e.name == name

mutual

/-- DOM `textContent` of a single node: character data for text/CDATA and
for a comment read on its own. -/
def textContentD : DNode → String
  | .elem _ _ ch => textContentL ch
  | .text s => s
  | .cdata s => s
  | .comment s => s

/-- DOM `textContent` concatenation over an element's descendants, which
skips comment children. -/
def textContentL : List DNode → String
  | [] => ""
  | .comment _ :: cs => textContentL cs
  | c :: cs => textContentD c ++ textContentL cs

end

/-- The `textContent` an element answers. -/
def MElem.textContent (e : MElem) : String := textContentL e.children

/-- Forget the ancestor bookkeeping: the element as a plain DOM subtree. -/
def MElem.toDNode (e : MElem) : DNode := .elem e.name e.attrs e.children

/-- Extraction basis selected by the radio group. -/
inductive ExtractionType where
  | element | attribute | content

/-- Extraction criteria: basis, optional element/attribute restriction
(empty string = unset), and the two checkboxes. -/
structure ExtractQuery where
  extractionType : ExtractionType
  specificElement : String
  specificAttribute : String
  includeParents : Bool
  keepStructure : Bool

/-- Selection phase of `extractData` (lines 216-280): produce the flat
matched-element list for the query basis.
Element basis: elements with the requested tag (or all) whose tag name or
full text content contains the term.  Attribute basis with a specific
attribute: elements possessing it with a truthy value containing the term;
without: elements having any attribute whose name or value contains the
term (added once).  Content basis: elements without element children whose
truthy text content contains the term.  All containment is case-sensitive
`String.includes`. -/
def selectMatchedExtract (doc : DNode) (term : String) (q : ExtractQuery) : List MElem :=
  match q.extractionType with
  | .element =>
    let elementName := if q.specificElement = "" then "*" else q.specificElement
    (getElementsByTagName doc elementName).filter fun e =>
      strIncludes e.name term || strIncludes e.textContent term
  | .attribute =>
    (getElementsByTagName doc "*").filter fun e =>
      if q.specificAttribute ≠ "" then
        match e.attrs.find? (fun kv => kv.1 == q.specificAttribute) with
        | some kv => kv.2 != "" && strIncludes kv.2 term
        | none => false
      else
        e.attrs.any fun kv => strIncludes kv.1 term || strIncludes kv.2 term
  | .content =>
    (getElementsByTagName doc "*").filter fun e =>
      e.children.all (fun c => !c.isElem) &&
        (e.textContent != "" && strIncludes e.textContent term)

/-- Selection phase of `generatePreview` (lines 85-149), a verbatim copy of
the `extractData` selection loops in the source. -/
def selectMatchedPreview (doc : DNode) (term : String) (q : ExtractQuery) : List MElem :=
  match q.extractionType with
  | .element =>
    let elementName := if q.specificElement = "" then "*" else q.specificElement
    (getElementsByTagName doc elementName).filter fun e =>
      strIncludes e.name term || strIncludes e.textContent term
  | .attribute =>
    (getElementsByTagName doc "*").filter fun e =>
      if q.specificAttribute ≠ "" then
        match e.attrs.find? (fun kv => kv.1 == q.specificAttribute) with
        | some kv => kv.2 != "" && strIncludes kv.2 term
        | none => false
      else
        e.attrs.any fun kv => strIncludes kv.1 term || strIncludes kv.2 term
  | .content =>
    (getElementsByTagName doc "*").filter fun e =>
      e.children.all (fun c => !c.isElem) &&
        (e.textContent != "" && strIncludes e.textContent term)

/-- Identification path built by the dedup phase (lines 287-292): walk from
the node up to (excluding) the document node, prefixing `/` + tag name at
each step; the result lists the tag names root-first. -/
def MElem.pathString (e : MElem) : String :=
  (e.ancestors.map Prod.fst ++ [e.name]).foldl (fun acc n => acc ++ "/" ++ n) ""

/-- `cloneParentStructure` (lines 345-363) applied to the matched node's
parent, expressed over the root-first ancestor chain: an attributes-only
element skeleton `a1(a2(...(ak)))` down to the parent, `none` when the
chain is empty (the matched node has no element parent). -/
def skeletonOf : List (String × List (String × String)) → Option DNode
  | [] => none
  | (n, a) :: rest =>
    some (.elem n a
      (match skeletonOf rest with
       | none => []
       | some child => [child]))

/-- Dedup/ancestor-reconstruction loop of `extractData` (lines 282-314):
drop a matched node whose identification path was already processed;
otherwise push the attributes-only ancestor skeleton when the node has an
element parent (`cloneParentStructure` of the parent never returns null in
that case), and the node itself when it has none. -/
def dedupByPath : List String → List MElem → List DNode
  | _, [] => []
  | processed, m :: rest =>
    if m.pathString ∈ processed then dedupByPath processed rest
    else
      (match skeletonOf m.ancestors with
       | some sk => sk
       | none => m.toDNode) :: dedupByPath (m.pathString :: processed) rest

/-- `cloneWithParents` (lines 365-375): deep-clone the node and, when its
parent is an element, wrap the clone in a shallow (attributes-only,
childless) clone of that immediate parent. -/
def cloneWithParents (m : MElem) : DNode :=
  match m.ancestors.getLast? with
  | some pa => .elem pa.1 pa.2 [m.toDNode]
  | none => m.toDNode

/-- Children appended under the `extraction-results` root by `extractData`
(lines 282-322).  When both checkboxes are set the dedup phase runs and the
assembly loop's `cloneWithParents` is the identity on its outputs (skeleton
chains are parentless fresh elements; a node kept verbatim there is the
root element, whose parent is the document node); the source's guard
`newMatchedNodes.length > 0` only matters when no node matched, where both
branches give the empty list.  Otherwise each matched node is appended,
wrapped by `cloneWithParents` exactly when `includeParents` is set. -/
def extractChildren (doc : DNode) (term : String) (q : ExtractQuery) : List DNode :=
  let matched := selectMatchedExtract doc term q
  if q.includeParents && q.keepStructure then
    dedupByPath [] matched
  else
    matched.map fun m => if q.includeParents then cloneWithParents m else m.toDNode

/-- Preview record assembled by `generatePreview` (lines 151-172): match
count, first five matched nodes, and per-tag / per-attribute tallies over
the matched nodes. -/
structure PreviewData where
  matchCount : Nat
  samples : List MElem
  elementCounts : List (String × Nat)
  attributeCounts : List (String × Nat)

/-- `generatePreview` statistics and samples (lines 151-172); the single
`forEach` updates the two tallies independently, so they are two folds. -/
def generatePreviewData (doc : DNode) (term : String) (q : ExtractQuery) : PreviewData :=
  let matchedNodes := selectMatchedPreview doc term q
  { matchCount := matchedNodes.length
    samples := matchedNodes.take 5
    elementCounts := matchedNodes.foldl (fun m e => bumpCount m e.name) []
    attributeCounts :=
      matchedNodes.foldl (fun m e => e.attrs.foldl (fun m2 kv => bumpCount m2 kv.1) m) [] }

/-- Error outcomes surfaced by the extraction entry point. -/
inductive ExtractionError where
  | missingInput
  | parseFailure (msg : String)

/-- The `extractData` entry point as a state transition on the stored
`extractedXML` result (modelled as the result's child list).  The guard at
lines 190-198 fires before any parsing or document construction when the
document string or the term is empty.  `parsed` stands for the host
DOMParser's outcome on the document string (host functionality, not
repository code); a parser error is rethrown and caught at lines 335-342,
also leaving the stored result unchanged. -/
def extractDataStep (xmlString term : String) (q : ExtractQuery)
    (parsed : Except String DNode) (prev : Option (List DNode)) :
    Option (List DNode) × Option ExtractionError :=
  if xmlString = "" ∨ term = "" then (prev, some .missingInput)
  else
    match parsed with
    | .error m => (prev, some (.parseFailure m))
    | .ok doc => (some (extractChildren doc term q), none)

/-! ## Specification-side comparison definitions

These definitions follow the spec's wording rather than the source; they
exist to be compared with the source-translated functions above. -/

mutual

/-- All nodes of a tree-view tree in pre-order (the traversal order the
spec prescribes for the search engine). -/
def allNodes : XNode → List XNode
  | .element n a ch p => .element n a ch p :: allNodesL ch
  | .text v p => [.text v p]
  | .comment v p => [.comment v p]
  | .cdata v p => [.cdata v p]

/-- Pre-order node collection over a child list. -/
def allNodesL : List XNode → List XNode
  | [] => []
  | c :: cs => allNodes c ++ allNodesL cs

end

/-- Spec-side match predicate: case-folded substring containment of the
term in the node's text or attribute rendering, with no case-sensitivity,
whole-word, or scope refinement. -/
def caseFoldedSubstringMatch (term : String) (n : XNode) : Bool :=
  strIncludes (lowerS (nodeTextOf n)) (lowerS term) ||
    strIncludes (lowerS (attrTextOf n)) (lowerS term)

/-- Spec-side dedup policy: keep only the first matched node seen for each
distinct identification path, dropping every later occurrence. -/
def keepFirstByPath : List String → List MElem → List MElem
  | _, [] => []
  | seen, m :: rest =>
    if m.pathString ∈ seen then keepFirstByPath seen rest
    else m :: keepFirstByPath (m.pathString :: seen) rest

/-- The per-survivor output of the dedup phase: the attributes-only
ancestor skeleton, or the node itself when it has no element parent. -/
def ancestorEntry (m : MElem) : DNode :=
  match skeletonOf m.ancestors with
  | some sk => sk
  | none => m.toDNode

mutual

/-- Does any element named `k` occur in the subtree? -/
def hasElemNamed : DNode → String → Bool
  | .elem n _ ch, k => n == k || hasElemNamedL ch k
  | .text _, _ => false
  | .comment _, _ => false
  | .cdata _, _ => false

/-- Element-name occurrence over a child list. -/
def hasElemNamedL : List DNode → String → Bool
  | [], _ => false
  | c :: cs, k => hasElemNamed c k || hasElemNamedL cs k

end

/-! ## Concrete sample documents and queries used as witnesses -/

/-- One `<book>` with a `<title>` and an `<author>`, each with text. -/
def bookD : DNode :=
  .elem "book" [] [.elem "title" [] [.text "T"], .elem "author" [] [.text "A"]]

/-- Analyzer scenario document: a root with 10 such `<book>` children. -/
def bookstoreDoc : DNode := .elem "bookstore" [] (List.replicate 10 bookD)

/-- A three-level document whose only leaf `<book>` holds the text
`target`. -/
def libDoc : DNode :=
  .elem "library" []
    [.elem "shelf" [("loc", "2")] [.elem "book" [] [.text "target"]]]

/-- Content-basis query with both checkboxes set. -/
def qContentKeep : ExtractQuery := ⟨.content, "", "", true, true⟩

/-- Content-basis query with parents included but structure not kept. -/
def qContentNoKeep : ExtractQuery := ⟨.content, "", "", true, false⟩

/-- Two same-tag siblings with identical text, hence identical
identification paths. -/
def dupDoc : DNode :=
  .elem "r" [("v", "1")]
    [.elem "book" [("id", "1")] [.text "cat"],
     .elem "book" [("id", "2")] [.text "cat"]]

/-- Document whose only term occurrence sits inside the longer word
`category`. -/
def catDoc : DNode := .elem "items" [] [.elem "item" [] [.text "category"]]

/-- Document whose text differs from the search term only in letter
case. -/
def helloDoc : DNode := .elem "r" [] [.text "Hello"]

/-- Document with a non-root element (`a`) whose sole child is a text
node, next to a sibling (`b`) without text content. -/
def expDoc : DNode :=
  .elem "r" [] [.elem "a" [] [.text "x"], .elem "b" [] [.elem "c" [] []]]

/-- Two same-tag element siblings distinguished only by attributes. -/
def sibDoc : DNode :=
  .elem "r" [] [.elem "b" [("i", "1")] [], .elem "b" [("i", "2")] []]

/-- Search options with whole-word matching requested. -/
def optsWholeWord : SearchOptions := ⟨false, true, .all, false⟩

/-- Search options with case sensitivity requested. -/
def optsCaseSensitive : SearchOptions := ⟨true, false, .all, false⟩

/-! # Theorems settling the claims -/

/-- C1: when both `includeAncestors` and `preserveStructure` are set, the
claim says each retained match contributes its attributes-only ancestor
skeleton with the matched node's full subtree attached at the bottom.  On
the sample document the single retained `<book>` match yields only the
skeleton `<library><shelf/></library>`: the dedup loop pushes
`cloneParentStructure(parent)` and never attaches the matched node, so no
`book` element occurs anywhere in the result children. -/
theorem c1_skeleton_drops_matched_subtree :
    qContentKeep.includeParents = true ∧
    qContentKeep.keepStructure = true ∧
    selectMatchedExtract libDoc "target" qContentKeep =
      [⟨[("library", []), ("shelf", [("loc", "2")])], "book", [],
        [DNode.text "target"]⟩] ∧
    extractChildren libDoc "target" qContentKeep =
      [DNode.elem "library" [] [DNode.elem "shelf" [("loc", "2")] []]] ∧
    hasElemNamedL (extractChildren libDoc "target" qContentKeep) "book" = false :=
  ⟨rfl, rfl, rfl, rfl, rfl⟩

set_option maxRecDepth 8000 in
/-- C3 counterexample: on the bookstore document (10 `<book>` children each
with one `<title>` and one `<author>`, all with text), the analyzer reports
31 elements (root + 10 + 10 + 10), not 30, and max depth 3 (the text
children are visited at depth 3), not 2; so the claimed
`totalElements = 30 ∧ maxDepth = 2` is false. -/
theorem c3_bookstore_claim_false :
    ¬((analyze bookstoreDoc).elemTotal = 30 ∧ (analyze bookstoreDoc).maxLevel = 2) := by
  simp [analyze, bookstoreDoc, bookD, analyzeNode, analyzeNodeL, bumpCount,
    initStats, List.replicate]

set_option maxRecDepth 8000 in
/-- C3 amended: the analyzer run on the bookstore document reports
`elementCounts["book"] = 10`, `elementCounts["title"] = 10`,
`totalElements = 31` (root, books, titles, authors), and `maxDepth = 3`
(the text children of `<title>`/`<author>` are visited at depth 3). -/
theorem c3_bookstore_amended :
    getCount (analyze bookstoreDoc).elementCounts "book" = 10 ∧
    getCount (analyze bookstoreDoc).elementCounts "title" = 10 ∧
    (analyze bookstoreDoc).elemTotal = 31 ∧
    (analyze bookstoreDoc).maxLevel = 3 := by
  simp [analyze, bookstoreDoc, bookD, analyzeNode, analyzeNodeL, bumpCount,
    initStats, List.replicate, getCount, List.find?]

/-- C4: the claim says the recorded expanded set after build equals the
root path plus every element path whose sole child is a single text node.
On the sample document the path `r/a` is queued during parsing (its sole
child is a text node) but the final reset at line 151 leaves the recorded
set as exactly the root path, so `r/a` is not in it. -/
theorem c4_expanded_set_is_root_only :
    preExpanded expDoc "" = ["r/a"] ∧
    expandedAfterBuild expDoc = ["r"] ∧
    "r/a" ∉ expandedAfterBuild expDoc := by
  refine ⟨rfl, rfl, ?_⟩
  decide

/-- C7: preview and extract run the identical selection phase: the matched
sequences coincide, preview's match count is that sequence's length, and
preview's samples are its first five elements. -/
theorem c7_preview_extract_same_selection
    (doc : DNode) (term : String) (q : ExtractQuery) :
    selectMatchedPreview doc term q = selectMatchedExtract doc term q ∧
    (generatePreviewData doc term q).matchCount =
      (selectMatchedExtract doc term q).length ∧
    (generatePreviewData doc term q).samples =
      (selectMatchedExtract doc term q).take 5 :=
  ⟨rfl, rfl, rfl⟩

/-- C8: an empty document string or an empty term makes the extraction
entry point report the missing-input failure and leave the stored
extraction result untouched, whatever the parser would have said. -/
theorem c8_missing_input (xmlString term : String) (q : ExtractQuery)
    (parsed : Except String DNode) (prev : Option (List DNode))
    (h : xmlString = "" ∨ term = "") :
    extractDataStep xmlString term q parsed prev = (prev, some .missingInput) := by
  unfold extractDataStep
  rw [if_pos h]

/-- C8 witness: concrete missing-input invocation (empty document string,
non-empty term, stored result present) hits the theorem's conclusion. -/
theorem c8_missing_input_witness :
    (("" : String) = "" ∨ ("needle" : String) = "") ∧
    extractDataStep "" "needle" qContentKeep (Except.ok libDoc) (some [libDoc]) =
      (some [libDoc], some ExtractionError.missingInput) :=
  ⟨Or.inl rfl,
    c8_missing_input "" "needle" qContentKeep (Except.ok libDoc) (some [libDoc])
      (Or.inl rfl)⟩

/-- C10: with ancestors included but structure not preserved, every matched
element is emitted wrapped in exactly one shallow parent clone — the
immediate parent's tag and attributes with the matched subtree as its only
child — and a match whose parent is the document node is emitted
unwrapped. -/
theorem c10_single_parent_wrap (doc : DNode) (term : String) (q : ExtractQuery)
    (h1 : q.includeParents = true) (h2 : q.keepStructure = false) :
    extractChildren doc term q =
      (selectMatchedExtract doc term q).map fun m =>
        match m.ancestors.getLast? with
        | some pa => DNode.elem pa.1 pa.2 [m.toDNode]
        | none => m.toDNode := by
  unfold extractChildren
  rw [h1, h2]
  simp [cloneWithParents]

/-- C10 witness: on the three-level sample document the single `<book>`
match is wrapped in its immediate `<shelf>` parent only — no `<library>`
level appears. -/
theorem c10_single_parent_wrap_witness :
    extractChildren libDoc "target" qContentNoKeep =
      ((selectMatchedExtract libDoc "target" qContentNoKeep).map fun m =>
        match m.ancestors.getLast? with
        | some pa => DNode.elem pa.1 pa.2 [m.toDNode]
        | none => m.toDNode) ∧
    extractChildren libDoc "target" qContentNoKeep =
      [DNode.elem "shelf" [("loc", "2")]
        [DNode.elem "book" [] [DNode.text "target"]]] :=
  ⟨c10_single_parent_wrap libDoc "target" qContentNoKeep rfl rfl, rfl⟩

/-- C2: the claim says whole-word mode matches only at word boundaries, so
`cat` must not match inside `category`.  With whole-word requested, the
match set on a document whose only text is `category` nevertheless contains
that text node's path: the options never reach the matcher, which is plain
case-folded substring containment. -/
theorem c2_wholeword_not_honored :
    optsWholeWord.wholeWord = true ∧
    ("cat" : String) ≠ "category" ∧
    searchWithOptions "cat" optsWholeWord (parseNode catDoc "") =
      ["items/item/text()[0]"] := by
  refine ⟨rfl, by decide, rfl⟩

/-- C5 counterexample: with case sensitivity requested, the term `hello`
differs from the document's text `Hello` only in letter case, yet the
match set contains the text node's path — so the claim's "no match under
caseSensitive" is false. -/
theorem c5_case_sensitive_counterexample :
    optsCaseSensitive.caseSensitive = true ∧
    ("hello" : String) ≠ "Hello" ∧
    lowerS "hello" = lowerS "Hello" ∧
    searchWithOptions "hello" optsCaseSensitive (parseNode helloDoc "") =
      ["r/text()[0]"] := by
  refine ⟨rfl, by decide, by decide, rfl⟩

mutual

/-- Characterization of the match collection: it is the pre-order node
list filtered by the source's match test, projected to paths. -/
theorem findMatchingNodes_eq_filter (term : String) :
    ∀ t : XNode,
      findMatchingNodes term t =
        ((allNodes t).filter fun n => nodeContains term n && n.path != "").map
          XNode.path := by
  intro t
  cases t with
  | element n a ch p =>
    have hL := findMatchingNodesL_eq_filter term ch
    cases hc : nodeContains term (.element n a ch p) && (p != "") <;>
      simp [findMatchingNodes, allNodes, List.filter_cons, XNode.path, hc, hL]
  | text v p =>
    cases hc : nodeContains term (.text v p) && (p != "") <;>
      simp [findMatchingNodes, allNodes, List.filter_cons, XNode.path, hc]
  | comment v p =>
    cases hc : nodeContains term (.comment v p) && (p != "") <;>
      simp [findMatchingNodes, allNodes, List.filter_cons, XNode.path, hc]
  | cdata v p =>
    cases hc : nodeContains term (.cdata v p) && (p != "") <;>
      simp [findMatchingNodes, allNodes, List.filter_cons, XNode.path, hc]

/-- List version of the match-collection characterization. -/
theorem findMatchingNodesL_eq_filter (term : String) :
    ∀ l : List XNode,
      findMatchingNodesL term l =
        ((allNodesL l).filter fun n => nodeContains term n && n.path != "").map
          XNode.path := by
  intro l
  cases l with
  | nil => simp [findMatchingNodesL, allNodesL]
  | cons c cs =>
    have h1 := findMatchingNodes_eq_filter term c
    have h2 := findMatchingNodesL_eq_filter term cs
    simp [findMatchingNodesL, allNodesL, List.filter_append, h1, h2]

end

/-- C5 amended: for every tree, term, and option record, the match set is
exactly the pre-order nodes whose case-folded text or attribute rendering
contains the case-folded term (with a non-empty path), projected to paths —
i.e. matching is always case-folded substring containment, and the
`caseSensitive` flag (like every option) has no effect. -/
theorem c5_matching_always_case_folded (t : XNode) (term : String)
    (opts : SearchOptions) :
    searchWithOptions term opts t =
      if term = "" then []
      else
        ((allNodes t).filter fun n =>
          caseFoldedSubstringMatch term n && n.path != "").map XNode.path := by
  unfold searchWithOptions searchEffect
  by_cases h : term = ""
  · simp [h]
  · rw [if_neg h, if_neg h, findMatchingNodes_eq_filter]
    have hb : (term != "") = true := by simpa using h
    congr 1
    apply List.filter_congr
    intro n _
    rw [nodeContains, caseFoldedSubstringMatch, hb, Bool.true_and]

/-- Dedup phase decomposition: the loop output is exactly the first
occurrence per identification path, each transformed to its ancestor
skeleton (or kept verbatim when parentless). -/
theorem dedupByPath_eq_keepFirst :
    ∀ (l : List MElem) (seen : List String),
      dedupByPath seen l = (keepFirstByPath seen l).map ancestorEntry := by
  intro l
  induction l with
  | nil => intro seen; simp [dedupByPath, keepFirstByPath]
  | cons m rest ih =>
    intro seen
    by_cases h : m.pathString ∈ seen
    · simp [dedupByPath, keepFirstByPath, h, ih]
    · simp [dedupByPath, keepFirstByPath, h, ih, ancestorEntry]

/-- Dedup phase output size: one entry per distinct identification path
not already processed. -/
theorem dedupByPath_length :
    ∀ (l : List MElem) (seen : List String),
      (dedupByPath seen l).length =
        ((l.map MElem.pathString).toFinset \ seen.toFinset).card := by
  intro l
  induction l with
  | nil => intro seen; simp [dedupByPath]
  | cons m rest ih =>
    intro seen
    by_cases h : m.pathString ∈ seen
    · rw [show dedupByPath seen (m :: rest) = dedupByPath seen rest from by
        simp [dedupByPath, h]]
      rw [ih seen]
      simp [Finset.insert_sdiff_of_mem, h]
    · rw [show dedupByPath seen (m :: rest) =
          (match skeletonOf m.ancestors with
           | some sk => sk
           | none => m.toDNode) :: dedupByPath (m.pathString :: seen) rest from by
        simp [dedupByPath, h]]
      have hstep := ih (m.pathString :: seen)
      simp only [List.length_cons, hstep, List.map_cons, List.toFinset_cons]
      rw [Finset.sdiff_insert, Finset.insert_sdiff_of_not_mem _ (by simpa using h)]
      by_cases hm : m.pathString ∈ (rest.map MElem.pathString).toFinset \ seen.toFinset
      · rw [Finset.card_erase_of_mem hm, Finset.card_insert_of_mem hm]
        have : 0 < ((rest.map MElem.pathString).toFinset \ seen.toFinset).card :=
          Finset.card_pos.mpr ⟨m.pathString, hm⟩
        omega
      · rw [Finset.erase_eq_of_not_mem hm, Finset.card_insert_of_not_mem hm]

/-- C6: with both `includeAncestors` and `preserveStructure` set, the
extraction keeps only the first matched node per distinct root-to-node
tag-name path (later repeats are dropped), and the number of top-level
children appended under the extraction-results root equals — hence is at
most — the number of distinct ancestor-paths among the initially matched
nodes. -/
theorem c6_dedup_keeps_first_and_bounds (doc : DNode) (term : String)
    (q : ExtractQuery) (h1 : q.includeParents = true)
    (h2 : q.keepStructure = true) :
    extractChildren doc term q =
      (keepFirstByPath [] (selectMatchedExtract doc term q)).map ancestorEntry ∧
    (extractChildren doc term q).length =
      ((selectMatchedExtract doc term q).map MElem.pathString).toFinset.card ∧
    (extractChildren doc term q).length ≤
      ((selectMatchedExtract doc term q).map MElem.pathString).toFinset.card := by
  have hch : extractChildren doc term q =
      dedupByPath [] (selectMatchedExtract doc term q) := by
    unfold extractChildren
    rw [h1, h2]
    rfl
  refine ⟨?_, ?_, ?_⟩
  · rw [hch, dedupByPath_eq_keepFirst]
  · rw [hch, dedupByPath_length]
    simp
  · rw [hch, dedupByPath_length]
    simp

/-- C6 witness: two same-tag siblings with identical text share the path
`/r/book`; extraction with both checkboxes set emits exactly one top-level
child, matching the single distinct ancestor-path. -/
theorem c6_dedup_keeps_first_and_bounds_witness :
    (extractChildren dupDoc "cat" qContentKeep =
      (keepFirstByPath [] (selectMatchedExtract dupDoc "cat" qContentKeep)).map
        ancestorEntry) ∧
    (selectMatchedExtract dupDoc "cat" qContentKeep).length = 2 ∧
    extractChildren dupDoc "cat" qContentKeep = [DNode.elem "r" [("v", "1")] []] :=
  ⟨(c6_dedup_keeps_first_and_bounds dupDoc "cat" qContentKeep rfl rfl).1, rfl, rfl⟩

/-- Every element node in the built child list of an element carries the
path formed from the parent's extended path and its own tag name — sibling
position plays no part. -/
theorem parseChildren_elem_path :
    ∀ (cs : List DNode) (np : String) (i : Nat) (x : XNode),
      x ∈ parseChildren np cs i →
      ∀ n a c p, x = XNode.element n a c p → p = joinPath np n := by
  intro cs
  induction cs with
  | nil => intro np i x hx; simp [parseChildren] at hx
  | cons d rest ih =>
    intro np i x hx n a c p hxe
    cases d with
    | text s =>
      by_cases ht : trimS s = ""
      · rw [parseChildren] at hx
        simp [ht] at hx
        exact ih np (i + 1) x hx n a c p hxe
      · rw [parseChildren] at hx
        simp [ht] at hx
        rcases hx with h | h
        · rw [hxe] at h; cases h
        · exact ih np (i + 1) x h n a c p hxe
    | comment s =>
      rw [parseChildren] at hx
      simp at hx
      rcases hx with h | h
      · rw [hxe] at h; cases h
      · exact ih np (i + 1) x h n a c p hxe
    | cdata s =>
      rw [parseChildren] at hx
      simp at hx
      rcases hx with h | h
      · rw [hxe] at h; cases h
      · exact ih np (i + 1) x h n a c p hxe
    | elem n0 a0 c0 =>
      rw [parseChildren] at hx
      simp at hx
      rcases hx with h | h
      · rw [hxe, parseNode] at h
        injection h with hn ha hc hp
        rw [hp, hn]
      · exact ih np (i + 1) x h n a c p hxe

/-- C9: any two element children of the same parsed parent that share a
tag name receive the identical path string: the path is exactly the
parent's path extended by the tag name, with no sibling-position
component. -/
theorem c9_sibling_paths_identical (pn : String) (pa : List (String × String))
    (cs : List DNode) (p : String) (x y : XNode)
    (hx : x ∈ (parseNode (.elem pn pa cs) p).children)
    (hy : y ∈ (parseNode (.elem pn pa cs) p).children)
    (n : String) (ax : List (String × String)) (cx : List XNode) (px : String)
    (ay : List (String × String)) (cy : List XNode) (py : String)
    (hxe : x = XNode.element n ax cx px) (hye : y = XNode.element n ay cy py) :
    px = py ∧ px = joinPath (joinPath p pn) n := by
  have hch : (parseNode (.elem pn pa cs) p).children =
      parseChildren (joinPath p pn) cs 0 := by
    rw [parseNode]
    rfl
  rw [hch] at hx hy
  have h1 := parseChildren_elem_path cs (joinPath p pn) 0 x hx n ax cx px hxe
  have h2 := parseChildren_elem_path cs (joinPath p pn) 0 y hy n ay cy py hye
  exact ⟨h1.trans h2.symm, h1⟩

/-- C9 witness: in the two-sibling sample document, both `<b>` elements
parse to the path `r/b`. -/
theorem c9_sibling_paths_identical_witness :
    ("r/b" : String) = "r/b" ∧ ("r/b" : String) = joinPath (joinPath "" "r") "b" := by
  have hch : (parseNode sibDoc "").children =
      [XNode.element "b" [("i", "1")] [] "r/b",
       XNode.element "b" [("i", "2")] [] "r/b"] := rfl
  exact c9_sibling_paths_identical "r" []
    [DNode.elem "b" [("i", "1")] [], DNode.elem "b" [("i", "2")] []] ""
    (XNode.element "b" [("i", "1")] [] "r/b")
    (XNode.element "b" [("i", "2")] [] "r/b")
    (by rw [show (parseNode (.elem "r" []
          [DNode.elem "b" [("i", "1")] [], DNode.elem "b" [("i", "2")] []]) "").children =
            (parseNode sibDoc "").children from rfl, hch]
        exact List.mem_cons_self _ _)
    (by rw [show (parseNode (.elem "r" []
          [DNode.elem "b" [("i", "1")] [], DNode.elem "b" [("i", "2")] []]) "").children =
            (parseNode sibDoc "").children from rfl, hch]
        exact List.mem_cons_of_mem _ (List.mem_cons_self _ _))
    "b" [("i", "1")] [] "r/b" [("i", "2")] [] "r/b" rfl rfl

end XmlToolkit
